import Mathlib

/-!
Shallow embedding of `home_info.py` (repository `homeInfoAI`): address
validators, the best-effort parsers for the three model responses, and the
orchestration of `HomeInfoRetriever.get_home_information`.  Strings are
`List Char`; Python regular expressions are translated pattern by pattern
into executable matchers over the ASCII fragment.
-/

namespace HomeInfo

/-- Characters matched by Python's `\s` (ASCII fragment), also the set
stripped by `str.strip()`. -/
def isPySpace (c : Char) : Bool :=
  c = ' ' || c = '\t' || c = '\n' || c = '\x0d' || c = '\x0b' || c = '\x0c'

/-- Characters matched by Python's `\w` (ASCII fragment): letters, digits,
underscore.  Used for the `\b` word-boundary tests. -/
def isWordChar (c : Char) : Bool :=
  c.isAlphanum || c = '_'

/-- Characters matched by the class `[A-Za-z]`. -/
def isAsciiAlpha (c : Char) : Bool :=
  ('a' ≤ c && c ≤ 'z') || ('A' ≤ c && c ≤ 'Z')

/-- Python `str.strip()` on the ASCII fragment. -/
def pyStrip (l : List Char) : List Char :=
  ((l.dropWhile isPySpace).reverse.dropWhile isPySpace).reverse

/-- True when the first character exists and is not a `\w` character:
the `\b` test at a position whose left neighbour is a word character. -/
def headNonWord (l : List Char) : Bool :=
  match l.head? with
  | some q => !isWordChar q
  | none => false

/-- True when the last character exists and is not a `\w` character. -/
def lastNonWord (l : List Char) : Bool :=
  match l.getLast? with
  | some p => !isWordChar p
  | none => false

/-- All ways of cutting a list in two, `(take i, drop i)` for each `i`.
Used to enumerate the nondeterminism of `.*`-style regex pieces. -/
def splits2 (t : List Char) : List (List Char × List Char) :=
  (List.range (t.length + 1)).map fun i => (t.take i, t.drop i)

/-- The street-type alternatives of the street regex, in source order. -/
def streetTokens : List (List Char) :=
  ["street", "st", "avenue", "ave", "road", "rd",
   "boulevard", "blvd", "lane", "ln", "drive", "dr"].map String.toList

/-- Source regex `re.match(r'\d+.*\b[A-Za-z]+\b.*(?:street|st|...)\b.*', t)` on an
already lowercased `t`: a digit prefix, any non-newline gap, a whole word
of letters (`\b` on both sides), any non-newline gap, one of the street
tokens closed by `\b`, rest unconstrained (`re.match` does not anchor the
end, so the trailing `.*` never fails).  A regex match exists iff some
decomposition satisfies every piece, which `splits2` enumerates. -/
def streetMatch (t : List Char) : Bool :=
  (splits2 t).any fun s1 =>
    !s1.1.isEmpty && s1.1.all Char.isDigit &&
    ((splits2 s1.2).any fun s2 =>
      s2.1.all (fun c => c != '\n') &&
      ((splits2 s2.2).any fun s3 =>
        !s3.1.isEmpty && s3.1.all isAsciiAlpha &&
        lastNonWord (s1.1 ++ s2.1) && headNonWord s3.2 &&
        ((splits2 s3.2).any fun s4 =>
          s4.1.all (fun c => c != '\n') &&
          (streetTokens.any fun tok =>
            s4.2.take tok.length == tok &&
            ((s4.2.drop tok.length).isEmpty ||
              headNonWord (s4.2.drop tok.length))))))

/-- Source `AddressValidator.validate_street`: length guards, then the regex on
`street.lower()`. -/
def validate_street (s : List Char) : Bool :=
  !(s.isEmpty || decide ((pyStrip s).length < 5) || decide (100 < s.length)) &&
  streetMatch (s.map Char.toLower)

/-- Python's `$` anchor: end of string, or just before one trailing
newline. -/
def endAnchor (t : List Char) : Bool :=
  t.isEmpty || t == ['\n']

/-- The part of the ZIP regex after the first five digits:
`(?:-\d{4})?$`. -/
def zipTail (rest : List Char) : Bool :=
  endAnchor rest ||
  (match rest with
   | '-' :: f :: g :: h :: i :: rest2 =>
     f.isDigit && g.isDigit && h.isDigit && i.isDigit && endAnchor rest2
   | _ => false)

/-- Source `AddressValidator.validate_zipcode`:
`re.match(r'^\d{5}(?:-\d{4})?$', zipcode)`. -/
def validate_zipcode (s : List Char) : Bool :=
  match s with
  | a :: b :: c :: d :: e :: rest =>
    a.isDigit && b.isDigit && c.isDigit && d.isDigit && e.isDigit && zipTail rest
  | _ => false

/-! Case-insensitive literal matching and the capture shapes used by the
field extractors of `_get_property_details` and `_get_nearby_schools`. -/

/-- Consume a literal pattern (given lowercase) case-insensitively, as
`re.IGNORECASE` does on ASCII; return the rest of the text. -/
def stripLitCI : List Char → List Char → Option (List Char)
  | [], t => some t
  | _ :: _, [] => none
  | p :: ps, c :: cs => if c.toLower = p then stripLitCI ps cs else none

/-- Greedy `\s*`. -/
def dropWS (t : List Char) : List Char :=
  t.dropWhile isPySpace

/-- Greedy `:?`. -/
def skipColon (t : List Char) : List Char :=
  match t with
  | ':' :: r => r
  | _ => t

/-- Greedy `c?` for a literal character. -/
def skipOptChar (c : Char) (t : List Char) : List Char :=
  match t with
  | d :: r => if d = c then r else t
  | [] => t

/-- Capture of `(\d[\d,]*)`: a digit then a greedy run of digits and
commas. -/
def capDigitsCommas (t : List Char) : Option (List Char) :=
  match t with
  | c :: rest =>
    if c.isDigit then some (c :: rest.takeWhile fun d => d.isDigit || d == ',')
    else none
  | [] => none

/-- Capture of `(\d+)`: a greedy nonempty digit run. -/
def capDigits (t : List Char) : Option (List Char) :=
  let d := t.takeWhile Char.isDigit
  if d.isEmpty then none else some d

/-- Capture of `(\d+\.?\d*)`: digits, an optional dot, then digits, all
greedy. -/
def capNumber (t : List Char) : Option (List Char) :=
  let d := t.takeWhile Char.isDigit
  if d.isEmpty then none
  else
    match t.drop d.length with
    | '.' :: rest => some (d ++ '.' :: rest.takeWhile Char.isDigit)
    | _ => some d

/-- Capture of `(\d{4})`: exactly four digits (more digits may follow the
match unconsumed). -/
def capFourDigits (t : List Char) : Option (List Char) :=
  match t with
  | a :: b :: c :: d :: _ =>
    if a.isDigit && b.isDigit && c.isDigit && d.isDigit then some [a, b, c, d]
    else none
  | _ => none

/-- Value of a digit string, as `int()` reads one. -/
def digitsToNat (l : List Char) : Nat :=
  l.foldl (fun a c => 10 * a + (c.toNat - '0'.toNat)) 0

/-- Value of a `digits[.digits]` capture, as `float()` reads one; the
captured decimals are exact rationals. -/
def floatOfCapture (l : List Char) : ℚ :=
  let ip := l.takeWhile fun c => c != '.'
  let fp := (l.dropWhile fun c => c != '.').drop 1
  mkRat (digitsToNat ip * 10 ^ fp.length + digitsToNat fp) (10 ^ fp.length)

/-- Value of `float(cap.replace(',', ''))` for a `(\d[\d,]*)` capture. -/
def valueOfDigitsCommas (l : List Char) : ℚ :=
  mkRat (digitsToNat (l.filter fun c => c != ',')) 1

/-- Model of `re.search`: try the position matcher at each start position from the
left, the first success wins. -/
def searchPos (m : List Char → Option α) : List Char → Option α
  | [] => m []
  | t@(_ :: rest) => (m t).orElse fun _ => searchPos m rest

/-! The five field extractors of `_get_property_details`.  Each matcher
implements one pattern at a fixed start position; the greedy pieces are
deterministic here because the character classes of adjacent pieces are
disjoint, so no backtracking case is reachable. -/

/-- Pattern `Square\s*Feet:?\s*(\d[\d,]*)` at one position. -/
def matchSquareFeet (t : List Char) : Option (List Char) := do
  let t ← stripLitCI "square".toList t
  let t ← stripLitCI "feet".toList (dropWS t)
  capDigitsCommas (dropWS (skipColon t))

/-- Pattern `Bedrooms?:?\s*(\d+)` at one position. -/
def matchBedrooms (t : List Char) : Option (List Char) := do
  let t ← stripLitCI "bedroom".toList t
  capDigits (dropWS (skipColon (skipOptChar 's' t)))

/-- Pattern `Bathrooms?:?\s*(\d+\.?\d*)` at one position. -/
def matchBathrooms (t : List Char) : Option (List Char) := do
  let t ← stripLitCI "bathroom".toList t
  capNumber (dropWS (skipColon (skipOptChar 's' t)))

/-- Pattern `Estimated\s*Value:?\s*\$?\s*(\d[\d,]*)` at one position. -/
def matchEstimatedValue (t : List Char) : Option (List Char) := do
  let t ← stripLitCI "estimated".toList t
  let t ← stripLitCI "value".toList (dropWS t)
  capDigitsCommas (dropWS (skipOptChar '$' (dropWS (skipColon t))))

/-- Pattern `Year\s*Built:?\s*(\d{4})` at one position. -/
def matchYearBuilt (t : List Char) : Option (List Char) := do
  let t ← stripLitCI "year".toList t
  let t ← stripLitCI "built".toList (dropWS t)
  capFourDigits (dropWS (skipColon t))

/-- The `PropertyDetails` dataclass. -/
structure PropertyDetails where
  square_feet : Option ℚ
  bedrooms : Option Nat
  bathrooms : Option ℚ
  estimated_value : Option ℚ
  year_built : Option Nat
deriving DecidableEq, Repr

/-- The all-fields-absent record produced by the fallback branch. -/
def PropertyDetails.empty : PropertyDetails :=
  ⟨none, none, none, none, none⟩

/-- The parsing portion of `_get_property_details` applied to the response
text: five `re.search` extractions run in order and an `AttributeError`
(pattern not found) from any of them abandons every field, so the result is
the converted five captures when all are present and the empty record
otherwise. -/
def parse_property_details (t : List Char) : PropertyDetails :=
  match searchPos matchSquareFeet t, searchPos matchBedrooms t,
        searchPos matchBathrooms t, searchPos matchEstimatedValue t,
        searchPos matchYearBuilt t with
  | some sf, some bd, some ba, some ev, some yb =>
    ⟨some (valueOfDigitsCommas sf), some (digitsToNat bd),
     some (floatOfCapture ba), some (valueOfDigitsCommas ev),
     some (digitsToNat yb)⟩
  | _, _, _, _, _ => PropertyDetails.empty

/-- The `School` dataclass; `rating` is declared optional there. -/
structure School where
  name : List Char
  distance : ℚ
  rating : Option ℚ
  type : List Char
deriving DecidableEq, Repr

/-- The category alternatives of the school `Type:` pattern, in source
order. -/
def schoolTypes : List (List Char) :=
  ["elementary school", "middle school", "high school"].map String.toList

/-- Pattern `Name:\s*([^\n]+)` at one position.  The greedy `\s*` first swallows
the whole whitespace run; if nothing follows, it backs off from the right
until `[^\n]+` can take one non-newline whitespace character. -/
def matchName (t : List Char) : Option (List Char) := do
  let t ← stripLitCI "name:".toList t
  let r := t.dropWhile isPySpace
  if r.isEmpty then
    match (t.takeWhile isPySpace).reverse.find? (fun c => c != '\n') with
    | some c => some [c]
    | none => none
  else
    some (r.takeWhile fun c => c != '\n')

/-- Pattern `Distance:\s*(\d+\.?\d*)` at one position. -/
def matchDistance (t : List Char) : Option (List Char) := do
  let t ← stripLitCI "distance:".toList t
  capNumber (dropWS t)

/-- Pattern `Rating:\s*(\d+\.?\d*)` at one position. -/
def matchRating (t : List Char) : Option (List Char) := do
  let t ← stripLitCI "rating:".toList t
  capNumber (dropWS t)

/-- Pattern `Type:\s*(elementary school|middle school|high school)` at one
position; the captured text, lowercased as the source does, is the first
alternative that matches case-insensitively. -/
def matchType (t : List Char) : Option (List Char) := do
  let t ← stripLitCI "type:".toList t
  schoolTypes.find? fun ty => (stripLitCI ty (dropWS t)).isSome

/-- The per-entry body of the `_get_nearby_schools` loop: the four
searches must all succeed (`all([...])`), then the `School` is built with
the name stripped, numeric fields converted by `float()`, and the
category lowercased. -/
def parseSchoolEntry (entry : List Char) : Option School :=
  match searchPos matchName entry, searchPos matchDistance entry,
        searchPos matchRating entry, searchPos matchType entry with
  | some nm, some d, some r, some ty =>
    some ⟨pyStrip nm, floatOfCapture d, some (floatOfCapture r), ty⟩
  | _, _, _, _ => none

/-- Model of `str.split('\n\n')`, scanning left to right and consuming each
separator whole. -/
def splitNNAux (acc : List Char) : List Char → List (List Char)
  | [] => [acc.reverse]
  | [c] => [(c :: acc).reverse]
  | c :: d :: rest =>
    if c = '\n' ∧ d = '\n' then acc.reverse :: splitNNAux [] rest
    else splitNNAux (c :: acc) (d :: rest)

/-- Model of `school_text.split('\n\n')`. -/
def splitOnNN (t : List Char) : List (List Char) :=
  splitNNAux [] t

/-- Source line `[entry.strip() for entry in school_text.split('\n\n') if
entry.strip()]`. -/
def schoolEntries (t : List Char) : List (List Char) :=
  ((splitOnNN t).map pyStrip).filter fun e => !e.isEmpty

/-- The parsing portion of `_get_nearby_schools` applied to the response
text: the appending loop over the stripped entries. -/
def parse_nearby_schools (t : List Char) : List School :=
  (schoolEntries t).foldl
    (fun acc e =>
      match parseSchoolEntry e with
      | some s => acc ++ [s]
      | none => acc) []

/-! Orchestration.  The transport (the `chat.completions.create` call) is
modelled as an `Except`: `.error e` stands for the call raising an
exception whose `str()` is `e`.  The `openai` transport exceptions are
neither `AttributeError` nor `ValueError`, so in `_get_property_details`
they escape the `except (AttributeError, ValueError)` clause, while
`_get_nearby_schools` catches every `Exception`. -/

deriving instance DecidableEq for Except

/-- The three raw transport outcomes one `get_home_information` call
consumes, in request order. -/
structure GenResponses where
  overview : Except (List Char) (List Char)
  details : Except (List Char) (List Char)
  schools : Except (List Char) (List Char)

/-- The `HomeInformation` dataclass. -/
structure HomeInformation where
  address : List Char
  overview : List Char
  details : PropertyDetails
  nearby_schools : List School
deriving DecidableEq, Repr

/-- The wrapper applied by `get_home_information`'s `except` clause:
`Exception(f"Error retrieving home information: {str(e)}")`. -/
def wrapError (e : List Char) : List Char :=
  "Error retrieving home information: ".toList ++ e

/-- Source `_get_property_overview`: the transport text returned verbatim, the
transport exception propagated. -/
def get_property_overview (resp : Except (List Char) (List Char)) :
    Except (List Char) (List Char) :=
  resp

/-- Source `_get_property_details`: a transport failure escapes its
`except (AttributeError, ValueError)` clause; parse failures fall back to
the empty record inside `parse_property_details`. -/
def get_property_details (resp : Except (List Char) (List Char)) :
    Except (List Char) PropertyDetails :=
  match resp with
  | .error e => .error e
  | .ok t => .ok (parse_property_details t)

/-- Source `_get_nearby_schools`: its `except Exception` swallows a transport
failure into the empty list. -/
def get_nearby_schools (resp : Except (List Char) (List Char)) :
    List School :=
  match resp with
  | .error _ => []
  | .ok t => parse_nearby_schools t

/-- Source `HomeInfoRetriever.get_home_information`: the three sub-calls in
order inside one `try`; any exception reaching it is re-raised wrapped. -/
def get_home_information (address : List Char) (r : GenResponses) :
    Except (List Char) HomeInformation :=
  match get_property_overview r.overview with
  | .error e => .error (wrapError e)
  | .ok ov =>
    match get_property_details r.details with
    | .error e => .error (wrapError e)
    | .ok det =>
      .ok ⟨address, ov, det, get_nearby_schools r.schools⟩

/-! Spec-side definitions, written from the words of the claims under
scrutiny, to be compared with the source-side definitions above. -/

/-- Claim-side reading of `validate_street`: trimmed length at least 5,
raw length at most 100, and (case-insensitively) a digit prefix followed
eventually by a street-type token as a whole word, any characters allowed
between the digits and the token and after it. -/
def claimStreetShape (s : List Char) : Bool :=
  decide (5 ≤ (pyStrip s).length) && decide (s.length ≤ 100) &&
  ((splits2 (s.map Char.toLower)).any fun s1 =>
    !s1.1.isEmpty && s1.1.all Char.isDigit &&
    ((splits2 s1.2).any fun s2 =>
      streetTokens.any fun tok =>
        s2.2.take tok.length == tok &&
        lastNonWord (s1.1 ++ s2.1) &&
        ((s2.2.drop tok.length).isEmpty || headNonWord (s2.2.drop tok.length))))

/-- Claim-side reading of `validate_zipcode`: the whole string is exactly
five digits, or exactly five digits, a hyphen and four digits, nothing
before or after. -/
def zipClaimShape (s : List Char) : Bool :=
  match s with
  | [a, b, c, d, e] =>
    a.isDigit && b.isDigit && c.isDigit && d.isDigit && e.isDigit
  | [a, b, c, d, e, h, f, g, i, j] =>
    a.isDigit && b.isDigit && c.isDigit && d.isDigit && e.isDigit &&
    h == '-' && f.isDigit && g.isDigit && i.isDigit && j.isDigit
  | _ => false

/-- Declarative reading of the street regex on the lowercased text: a
nonempty digit prefix `A`, a non-newline gap `B`, a whole word of letters
`W` with non-word characters adjacent on both sides, a non-newline gap
`C`, a street token `K` ending at a word boundary, and an unconstrained
tail `D`. -/
def streetRegexSpec (t : List Char) : Prop :=
  ∃ A B W C K D : List Char,
    A ++ (B ++ (W ++ (C ++ (K ++ D)))) = t ∧
    A ≠ [] ∧ (∀ c ∈ A, c.isDigit = true) ∧
    (∀ c ∈ B, c ≠ '\n') ∧
    W ≠ [] ∧ (∀ c ∈ W, isAsciiAlpha c = true) ∧
    lastNonWord (A ++ B) = true ∧
    headNonWord (C ++ (K ++ D)) = true ∧
    (∀ c ∈ C, c ≠ '\n') ∧
    K ∈ streetTokens ∧
    (D = [] ∨ headNonWord D = true)

/-- No two adjacent newline characters anywhere in the list, so that
`split('\n\n')` finds no separator inside it. -/
def noDoubleNL : List Char → Bool
  | [] => true
  | [_] => true
  | c :: d :: rest => !(decide (c = '\n' ∧ d = '\n')) && noDoubleNL (d :: rest)

/-! ### Helper lemmas -/

/-- Searching the enumerated two-way splits succeeds exactly when some
decomposition satisfies the condition. -/
theorem any_splits2 (t : List Char) (f : List Char × List Char → Bool) :
    (splits2 t).any f = true ↔ ∃ A B : List Char, A ++ B = t ∧ f (A, B) = true := by
  constructor
  · intro h
    obtain ⟨p, hp, hf⟩ := List.any_eq_true.mp h
    obtain ⟨i, hi, rfl⟩ := List.mem_map.mp hp
    exact ⟨t.take i, t.drop i, List.take_append_drop i t, hf⟩
  · rintro ⟨A, B, rfl, hf⟩
    refine List.any_eq_true.mpr ⟨(A, B), List.mem_map.mpr ⟨A.length, ?_, ?_⟩, hf⟩
    · refine List.mem_range.mpr ?_
      simp only [List.length_append]
      omega
    · simp [List.take_left, List.drop_left]

/-- Python's `$` matches exactly at the end or before one final newline. -/
theorem endAnchor_iff (t : List Char) : endAnchor t = true ↔ t = [] ∨ t = ['\n'] := by
  simp [endAnchor, List.isEmpty_iff, beq_iff_eq]

/-- One scanning step of `split('\n\n')` past a non-separator position. -/
theorem splitNNAux_step (acc : List Char) (c d : Char) (rest : List Char)
    (h : ¬(c = '\n' ∧ d = '\n')) :
    splitNNAux acc (c :: d :: rest) = splitNNAux (c :: acc) (d :: rest) := by
  simp only [splitNNAux]
  rw [if_neg h]

/-- One scanning step of `split('\n\n')` consuming a separator. -/
theorem splitNNAux_cut (acc : List Char) (rest : List Char) :
    splitNNAux acc ('\n' :: '\n' :: rest) = acc.reverse :: splitNNAux [] rest := by
  simp [splitNNAux]

/-- Scanning `split('\n\n')` cuts at the first separator when the part before it
contains none (including across its last character). -/
theorem splitNNAux_sep (a : List Char) (h : noDoubleNL (a ++ ['\n']) = true) (b acc : List Char) :
    splitNNAux acc (a ++ '\n' :: '\n' :: b) = (acc.reverse ++ a) :: splitNNAux [] b := by
  induction a generalizing acc with
  | nil => simp [splitNNAux_cut]
  | cons c a' ih =>
    cases a' with
    | nil =>
      have hc : ¬(c = '\n' ∧ '\n' = '\n') := by
        intro hcc
        simp [noDoubleNL, hcc.1] at h
      rw [List.cons_append, List.nil_append, splitNNAux_step acc c '\n' ('\n' :: b) hc,
        splitNNAux_cut]
      simp
    | cons c' a'' =>
      have h' : noDoubleNL ((c' :: a'') ++ ['\n']) = true := by
        simp [noDoubleNL] at h ⊢
        exact h.2
      have hc : ¬(c = '\n' ∧ c' = '\n') := by
        simp [noDoubleNL] at h
        rcases h.1 with h0 | h0 <;> simp [h0]
      rw [List.cons_append]
      rw [show (c' :: a'') ++ '\n' :: '\n' :: b = c' :: (a'' ++ '\n' :: '\n' :: b) from rfl]
      rw [splitNNAux_step acc c c' (a'' ++ '\n' :: '\n' :: b) hc]
      rw [show c' :: (a'' ++ '\n' :: '\n' :: b) = (c' :: a'') ++ '\n' :: '\n' :: b from rfl]
      rw [ih h' (c :: acc)]
      simp

/-- Scanning `split('\n\n')` leaves a separator-free text whole. -/
theorem splitNNAux_noSep (a : List Char) (h : noDoubleNL a = true) (acc : List Char) :
    splitNNAux acc a = [acc.reverse ++ a] := by
  induction a generalizing acc with
  | nil => simp [splitNNAux]
  | cons c a' ih =>
    cases a' with
    | nil => simp [splitNNAux]
    | cons c' a'' =>
      have h' : noDoubleNL (c' :: a'') = true := by
        simp [noDoubleNL] at h ⊢
        exact h.2
      have hc : ¬(c = '\n' ∧ c' = '\n') := by
        simp [noDoubleNL] at h
        rcases h.1 with h0 | h0 <;> simp [h0]
      rw [splitNNAux_step acc c c' a'' hc, ih h']
      simp

/-- Splitting a text of three chunks joined by blank lines. -/
theorem splitOnNN_three (e1 e2 e3 : List Char)
    (h1 : noDoubleNL (e1 ++ ['\n']) = true) (h2 : noDoubleNL (e2 ++ ['\n']) = true)
    (h3 : noDoubleNL e3 = true) :
    splitOnNN (e1 ++ '\n' :: '\n' :: (e2 ++ '\n' :: '\n' :: e3)) = [e1, e2, e3] := by
  unfold splitOnNN
  rw [splitNNAux_sep e1 h1, splitNNAux_sep e2 h2, splitNNAux_noSep e3 h3]
  simp

/-- The appending loop of the school parser is a `filterMap`. -/
theorem foldl_append_filterMap (l : List (List Char)) (acc : List School) :
    l.foldl
        (fun acc e =>
          match parseSchoolEntry e with
          | some s => acc ++ [s]
          | none => acc) acc
      = acc ++ l.filterMap parseSchoolEntry := by
  induction l generalizing acc with
  | nil => simp
  | cons e l ih =>
    rcases h : parseSchoolEntry e with _ | s
    · simp [List.foldl_cons, h, ih, List.filterMap_cons]
    · simp [List.foldl_cons, h, ih, List.filterMap_cons]

/-- Source `_get_nearby_schools` keeps, in order, exactly the entries that
parse. -/
theorem parse_schools_eq_filterMap (t : List Char) :
    parse_nearby_schools t = (schoolEntries t).filterMap parseSchoolEntry := by
  unfold parse_nearby_schools
  rw [foldl_append_filterMap]
  simp

/-- A successful `re.search` exhibits a start position whose matcher
succeeds. -/
theorem searchPos_some {α : Type} (m : List Char → Option α) (t : List Char) (a : α)
    (h : searchPos m t = some a) : ∃ u, m u = some a := by
  induction t with
  | nil => exact ⟨[], h⟩
  | cons c rest ih =>
    rcases h' : m (c :: rest) with _ | v
    · unfold searchPos at h
      rw [h'] at h
      simp [Option.orElse] at h
      exact ih h
    · unfold searchPos at h
      rw [h'] at h
      simp [Option.orElse] at h
      exact ⟨c :: rest, by rw [h', h]⟩

/-- A successful `Type:` match captures one of the three category
alternatives. -/
theorem matchType_mem (u ty : List Char) (h : matchType u = some ty) :
    ty ∈ schoolTypes := by
  unfold matchType at h
  rcases h' : stripLitCI "type:".toList u with _ | t'
  · rw [h'] at h
    simp at h
  · rw [h'] at h
    simp at h
    exact List.mem_of_find?_eq_some h

/-! ### Claim theorems -/

/-- C1 counterexample: with the overview transport succeeding and the
details request failing at the transport level, `get_home_information`
raises the wrapped failure instead of returning a `HomeInformation`
record with degraded fields. -/
theorem c1_counterexample :
    (get_home_information "742 Evergreen Terrace, Springfield, IL 62704".toList
        ⟨.ok "A cozy two-story home.".toList, .error "connection reset".toList,
          .ok "Name: A\nDistance: 1\nRating: 5\nType: high school".toList⟩).isOk = false ∧
    get_home_information "742 Evergreen Terrace, Springfield, IL 62704".toList
        ⟨.ok "A cozy two-story home.".toList, .error "connection reset".toList,
          .ok "Name: A\nDistance: 1\nRating: 5\nType: high school".toList⟩ =
      .error (wrapError "connection reset".toList) := by
  exact ⟨rfl, rfl⟩

/-- C1 (amended): `get_home_information` raises a single wrapped failure
carrying the cause's description when the overview step throws or when
the details request fails at the transport level (that exception is not
an `AttributeError`/`ValueError`, so `_get_property_details` does not
catch it); every other sub-failure, including a schools transport failure
and any parse failure, degrades to a returned record. -/
theorem c1_wrapped_failure (address : List Char) (r : GenResponses) :
    (∀ e, r.overview = .error e →
      get_home_information address r = .error (wrapError e)) ∧
    (∀ ov e, r.overview = .ok ov → r.details = .error e →
      get_home_information address r = .error (wrapError e)) ∧
    (∀ ov t, r.overview = .ok ov → r.details = .ok t →
      get_home_information address r =
        .ok ⟨address, ov, parse_property_details t, get_nearby_schools r.schools⟩) := by
  obtain ⟨ov, dt, sc⟩ := r
  refine ⟨fun e h => ?_, fun o e h1 h2 => ?_, fun o t h1 h2 => ?_⟩ <;>
    simp_all [get_home_information, get_property_overview, get_property_details]

/-- C1 witness: the amended theorem applied to a concrete details-level
transport failure. -/
theorem c1_wrapped_failure_witness :
    get_home_information "10 Oak Ln".toList
        ⟨.ok "overview text".toList, .error "HTTP 500".toList, .ok "".toList⟩ =
      .error (wrapError "HTTP 500".toList) :=
  (c1_wrapped_failure "10 Oak Ln".toList
      ⟨.ok "overview text".toList, .error "HTTP 500".toList, .ok "".toList⟩).2.1
    "overview text".toList "HTTP 500".toList rfl rfl

/-- C7: a schools transport failure is swallowed into an empty school
list while the rest of the record is returned; an overview transport
failure propagates wrapped, with the cause's description appended to the
fixed message. -/
theorem c7_transport_asymmetry (address : List Char) (r : GenResponses) :
    (∀ e ov t, r.schools = .error e → r.overview = .ok ov → r.details = .ok t →
      get_home_information address r =
        .ok ⟨address, ov, parse_property_details t, []⟩) ∧
    (∀ e, r.overview = .error e →
      get_home_information address r = .error (wrapError e)) := by
  obtain ⟨ov, dt, sc⟩ := r
  refine ⟨fun e o t h1 h2 h3 => ?_, fun e h => ?_⟩ <;>
    simp_all [get_home_information, get_property_overview, get_property_details,
      get_nearby_schools]

/-- C7 witness: both branches of the theorem at concrete transport
outcomes. -/
theorem c7_transport_asymmetry_witness :
    get_home_information "55 Pine Rd".toList
        ⟨.ok "ov".toList, .ok "".toList, .error "timeout".toList⟩ =
      .ok ⟨"55 Pine Rd".toList, "ov".toList, PropertyDetails.empty, []⟩ ∧
    get_home_information "55 Pine Rd".toList
        ⟨.error "dns failure".toList, .ok "".toList, .ok "".toList⟩ =
      .error (wrapError "dns failure".toList) := by
  constructor
  · have h := (c7_transport_asymmetry "55 Pine Rd".toList
        ⟨.ok "ov".toList, .ok "".toList, .error "timeout".toList⟩).1
      "timeout".toList "ov".toList "".toList rfl rfl rfl
    rw [h]
    rfl
  · exact (c7_transport_asymmetry "55 Pine Rd".toList
      ⟨.error "dns failure".toList, .ok "".toList, .ok "".toList⟩).2
      "dns failure".toList rfl

/-- C2: details parsing is atomic.  If any of the five required labels is
missing or its value is non-numeric (its `re.search` finds nothing), the
record is all-fields-absent; and for every text the record is either
all-absent or all-present, never a partial mix. -/
theorem c2_details_atomicity (t : List Char) :
    ((searchPos matchSquareFeet t = none ∨ searchPos matchBedrooms t = none ∨
      searchPos matchBathrooms t = none ∨ searchPos matchEstimatedValue t = none ∨
      searchPos matchYearBuilt t = none) →
      parse_property_details t = PropertyDetails.empty) ∧
    (parse_property_details t = PropertyDetails.empty ∨
      ((parse_property_details t).square_feet.isSome = true ∧
       (parse_property_details t).bedrooms.isSome = true ∧
       (parse_property_details t).bathrooms.isSome = true ∧
       (parse_property_details t).estimated_value.isSome = true ∧
       (parse_property_details t).year_built.isSome = true)) := by
  unfold parse_property_details
  rcases h1 : searchPos matchSquareFeet t with _ | v1 <;>
    rcases h2 : searchPos matchBedrooms t with _ | v2 <;>
      rcases h3 : searchPos matchBathrooms t with _ | v3 <;>
        rcases h4 : searchPos matchEstimatedValue t with _ | v4 <;>
          rcases h5 : searchPos matchYearBuilt t with _ | v5 <;>
            simp

/-- C2 witness: a details text with no `Bedrooms` label degrades to the
all-absent record through the theorem. -/
theorem c2_details_atomicity_witness :
    parse_property_details
        "Square Feet: 900\nBathrooms: 1\nEstimated Value: 100\nYear Built: 1990".toList =
      PropertyDetails.empty :=
  (c2_details_atomicity
      "Square Feet: 900\nBathrooms: 1\nEstimated Value: 100\nYear Built: 1990".toList).1
    (Or.inr (Or.inl (by decide)))

/-- C9: the canonical details text parses to
`PropertyDetails(1200.0, 3, 2.0, 450000.0, 1995)`: commas are stripped
before conversion and the dollar sign before the value is tolerated. -/
theorem c9_details_scenario :
    parse_property_details
        "Square Feet: 1,200\nBedrooms: 3\nBathrooms: 2\nEstimated Value: $450,000\nYear Built: 1995".toList =
      ⟨some 1200, some 3, some 2, some 450000, some 1995⟩ := by
  decide

/-- C4: school parsing is per-entry tolerant.  For three chunks joined by
blank lines, if the middle chunk is present but fails to parse while the
outer two parse, the result is exactly the two parsed schools, in order,
of length 2. -/
theorem c4_school_partial_tolerance (e1 e2 e3 : List Char) (s1 s3 : School)
    (h1 : noDoubleNL (e1 ++ ['\n']) = true) (h2 : noDoubleNL (e2 ++ ['\n']) = true)
    (h3 : noDoubleNL e3 = true)
    (hp1 : parseSchoolEntry (pyStrip e1) = some s1)
    (hne2 : pyStrip e2 ≠ [])
    (hbad : parseSchoolEntry (pyStrip e2) = none)
    (hp3 : parseSchoolEntry (pyStrip e3) = some s3) :
    parse_nearby_schools (e1 ++ '\n' :: '\n' :: (e2 ++ '\n' :: '\n' :: e3)) = [s1, s3] ∧
    (parse_nearby_schools (e1 ++ '\n' :: '\n' :: (e2 ++ '\n' :: '\n' :: e3))).length = 2 := by
  have hnilp : parseSchoolEntry ([] : List Char) = none := rfl
  have hne1 : pyStrip e1 ≠ [] := by
    intro hz
    rw [hz, hnilp] at hp1
    exact Option.noConfusion hp1
  have hne3 : pyStrip e3 ≠ [] := by
    intro hz
    rw [hz, hnilp] at hp3
    exact Option.noConfusion hp3
  have hentries : schoolEntries (e1 ++ '\n' :: '\n' :: (e2 ++ '\n' :: '\n' :: e3)) =
      [pyStrip e1, pyStrip e2, pyStrip e3] := by
    unfold schoolEntries
    rw [splitOnNN_three e1 e2 e3 h1 h2 h3]
    simp [List.filter_cons, List.isEmpty_iff, hne1, hne2, hne3]
  rw [parse_schools_eq_filterMap, hentries]
  simp [List.filterMap_cons, hp1, hbad, hp3]

/-- C4 witness: one malformed middle chunk among three concrete chunks
yields exactly the other two schools. -/
theorem c4_school_partial_tolerance_witness :
    parse_nearby_schools
        ("Name: Lincoln Elementary\nDistance: 2 miles\nRating: 8/10\nType: elementary school".toList ++
          '\n' :: '\n' ::
            ("Name: Central Middle\nDistance: 3 miles\nType: middle school".toList ++
              '\n' :: '\n' ::
                "Name: Roosevelt High\nDistance: 4 miles\nRating: 9/10\nType: high school".toList)) =
      [⟨"Lincoln Elementary".toList, 2, some 8, "elementary school".toList⟩,
       ⟨"Roosevelt High".toList, 4, some 9, "high school".toList⟩] :=
  (c4_school_partial_tolerance _ _ _ _ _ (by decide) (by decide) (by decide) (by decide)
    (by decide) (by decide) (by decide)).1

/-- C5 counterexample: a chunk whose name, distance and category all
parse but whose rating is absent produces no `School` at all — the chunk
is skipped, not kept with an absent rating. -/
theorem c5_counterexample :
    searchPos matchName
        "Name: Central Middle\nDistance: 3 miles\nType: middle school".toList =
      some "Central Middle".toList ∧
    searchPos matchDistance
        "Name: Central Middle\nDistance: 3 miles\nType: middle school".toList =
      some "3".toList ∧
    searchPos matchType
        "Name: Central Middle\nDistance: 3 miles\nType: middle school".toList =
      some "middle school".toList ∧
    searchPos matchRating
        "Name: Central Middle\nDistance: 3 miles\nType: middle school".toList = none ∧
    parseSchoolEntry
        "Name: Central Middle\nDistance: 3 miles\nType: middle school".toList = none ∧
    parse_nearby_schools
        "Name: Central Middle\nDistance: 3 miles\nType: middle school".toList = [] := by
  decide

/-- C5 (amended): the rating field is required by the parser, not
optional: an entry whose `Rating:` search fails yields no `School`. -/
theorem c5_rating_required (entry : List Char)
    (h : searchPos matchRating entry = none) :
    parseSchoolEntry entry = none := by
  unfold parseSchoolEntry
  rcases h1 : searchPos matchName entry with _ | nm <;>
    rcases h2 : searchPos matchDistance entry with _ | d <;>
      rcases h4 : searchPos matchType entry with _ | ty <;>
        simp [h, h1, h2, h4]

/-- C5 witness: the amended theorem applied to a concrete rating-free
entry. -/
theorem c5_rating_required_witness :
    parseSchoolEntry "Name: Jefferson High\nDistance: 1.5 miles\nType: high school".toList =
      none :=
  c5_rating_required
    "Name: Jefferson High\nDistance: 1.5 miles\nType: high school".toList (by decide)

/-- C6 counterexample: a schools response of four well-formed chunks
makes `get_home_information` return four schools, so the sequence length
is not bounded by 3. -/
theorem c6_counterexample :
    (get_home_information "9 Elm St".toList
        ⟨.ok "ov".toList, .ok "".toList,
          .ok ("Name: A\nDistance: 1\nRating: 5\nType: high school\n\nName: B\nDistance: 2\nRating: 6\nType: middle school\n\nName: C\nDistance: 3\nRating: 7\nType: elementary school\n\nName: D\nDistance: 4\nRating: 8\nType: high school").toList⟩).map
        (fun hi => hi.nearby_schools.length) = .ok 4 ∧
    ¬(4 ≤ 3) := by
  exact ⟨rfl, by decide⟩

/-- C6 (amended): the schools in the returned list appear in the order of
their chunks in the model output (the list is the in-order `filterMap` of
the chunk list), and its length is bounded by the number of chunks, not
by 3. -/
theorem c6_order_and_length (t : List Char) :
    parse_nearby_schools t = (schoolEntries t).filterMap parseSchoolEntry ∧
    (parse_nearby_schools t).length ≤ (schoolEntries t).length := by
  refine ⟨parse_schools_eq_filterMap t, ?_⟩
  rw [parse_schools_eq_filterMap]
  exact List.length_filterMap_le _ _

/-- C10: every school the parser produces has a present rating and a
lowercased category equal to one of the three recognized school types. -/
theorem c10_school_fields (t : List Char) (s : School)
    (h : s ∈ parse_nearby_schools t) :
    s.rating.isSome = true ∧
    (s.type = "elementary school".toList ∨ s.type = "middle school".toList ∨
      s.type = "high school".toList) := by
  rw [parse_schools_eq_filterMap] at h
  obtain ⟨e, he, hp⟩ := List.mem_filterMap.mp h
  unfold parseSchoolEntry at hp
  rcases h1 : searchPos matchName e with _ | nm <;>
    rcases h2 : searchPos matchDistance e with _ | d <;>
      rcases h3 : searchPos matchRating e with _ | rt <;>
        rcases h4 : searchPos matchType e with _ | ty <;>
          rw [h1, h2, h3, h4] at hp <;>
            simp only [Option.some.injEq, reduceCtorEq] at hp
  obtain rfl := hp.symm
  refine ⟨rfl, ?_⟩
  obtain ⟨u, hu⟩ := searchPos_some matchType e ty h4
  have hmem := matchType_mem u ty hu
  simp only [schoolTypes, List.map_cons, List.map_nil, List.mem_cons,
    List.not_mem_nil, or_false] at hmem
  exact hmem

/-- C10 witness: the theorem applied to a concrete parsed school. -/
theorem c10_school_fields_witness :
    ((⟨"A".toList, 1, some 5, "high school".toList⟩ : School).rating.isSome = true ∧
     ((⟨"A".toList, 1, some 5, "high school".toList⟩ : School).type =
        "elementary school".toList ∨
      (⟨"A".toList, 1, some 5, "high school".toList⟩ : School).type =
        "middle school".toList ∨
      (⟨"A".toList, 1, some 5, "high school".toList⟩ : School).type =
        "high school".toList)) :=
  c10_school_fields "Name: A\nDistance: 1\nRating: 5\nType: high school".toList
    ⟨"A".toList, 1, some 5, "high school".toList⟩ (by decide)

/-- C8 counterexample: Python's `$` also matches just before one final
newline, so `"12345\n"` is accepted although it is not exactly five
digits with nothing after. -/
theorem c8_counterexample :
    validate_zipcode "12345\n".toList = true ∧ zipClaimShape "12345\n".toList = false := by
  exact ⟨by decide, by decide⟩

/-- C8 (amended): `validate_zipcode` accepts exactly the ZIP and ZIP+4
shapes, but optionally followed by one trailing newline, reflecting the
`$` anchor's Python semantics. -/
theorem c8_zip_amended (s : List Char) :
    validate_zipcode s = true ↔
      (zipClaimShape s = true ∨ ∃ u, s = u ++ ['\n'] ∧ zipClaimShape u = true) := by
  constructor
  · intro h
    unfold validate_zipcode at h
    split at h
    · rename_i a b c d e rest
      simp only [Bool.and_eq_true, and_assoc] at h
      obtain ⟨ha, hb, hc, hd, he, hz⟩ := h
      unfold zipTail at hz
      simp only [Bool.or_eq_true] at hz
      rcases hz with hz | hz
      · rw [endAnchor_iff] at hz
        rcases hz with rfl | rfl
        · exact Or.inl (by simp [zipClaimShape, ha, hb, hc, hd, he])
        · exact Or.inr ⟨[a, b, c, d, e], rfl,
            by simp [zipClaimShape, ha, hb, hc, hd, he]⟩
      · split at hz
        · rename_i f g h' i rest2
          simp only [Bool.and_eq_true, and_assoc] at hz
          obtain ⟨hf, hg, hh, hi, he2⟩ := hz
          rw [endAnchor_iff] at he2
          rcases he2 with rfl | rfl
          · exact Or.inl
              (by simp [zipClaimShape, ha, hb, hc, hd, he, hf, hg, hh, hi])
          · exact Or.inr ⟨[a, b, c, d, e, '-', f, g, h', i], rfl,
              by simp [zipClaimShape, ha, hb, hc, hd, he, hf, hg, hh, hi]⟩
        · exact absurd hz (by simp)
    · exact absurd h (by simp)
  · rintro (h | ⟨u, rfl, h⟩)
    · unfold zipClaimShape at h
      split at h
      · rename_i a b c d e
        simp only [Bool.and_eq_true, and_assoc] at h
        obtain ⟨ha, hb, hc, hd, he⟩ := h
        simp [validate_zipcode, zipTail, endAnchor, ha, hb, hc, hd, he]
      · rename_i a b c d e hy f g i j
        simp only [Bool.and_eq_true, and_assoc] at h
        obtain ⟨ha, hb, hc, hd, he, hhy, hf, hg, hi, hj⟩ := h
        have : hy = '-' := by simpa using hhy
        subst this
        simp [validate_zipcode, zipTail, endAnchor, ha, hb, hc, hd, he, hf, hg, hi, hj]
      · exact absurd h (by simp)
    · unfold zipClaimShape at h
      split at h
      · rename_i a b c d e
        simp only [Bool.and_eq_true, and_assoc] at h
        obtain ⟨ha, hb, hc, hd, he⟩ := h
        simp [validate_zipcode, zipTail, endAnchor, ha, hb, hc, hd, he]
      · rename_i a b c d e hy f g i j
        simp only [Bool.and_eq_true, and_assoc] at h
        obtain ⟨ha, hb, hc, hd, he, hhy, hf, hg, hi, hj⟩ := h
        have : hy = '-' := by simpa using hhy
        subst this
        simp [validate_zipcode, zipTail, endAnchor, ha, hb, hc, hd, he, hf, hg, hi, hj]
      · exact absurd h (by simp)

/-- C8 witness: a ZIP+4 accepted through the amended theorem. -/
theorem c8_zip_amended_witness :
    validate_zipcode "90210-1234".toList = true :=
  (c8_zip_amended "90210-1234".toList).mpr (Or.inl (by decide))

/-- The street regex matcher succeeds exactly on the texts admitting the
declarative six-part decomposition. -/
theorem streetMatch_iff (t : List Char) : streetMatch t = true ↔ streetRegexSpec t := by
  unfold streetMatch streetRegexSpec
  rw [any_splits2]
  constructor
  · rintro ⟨A, r1, rfl, hf⟩
    simp only [Bool.and_eq_true, and_assoc] at hf
    obtain ⟨hA1, hA2, hany2⟩ := hf
    rw [any_splits2] at hany2
    obtain ⟨B, r2, rfl, hf2⟩ := hany2
    simp only [Bool.and_eq_true, and_assoc] at hf2
    obtain ⟨hB, hany3⟩ := hf2
    rw [any_splits2] at hany3
    obtain ⟨W, r3, rfl, hf3⟩ := hany3
    simp only [Bool.and_eq_true, and_assoc] at hf3
    obtain ⟨hW1, hW2, hlast, hhead, hany4⟩ := hf3
    rw [any_splits2] at hany4
    obtain ⟨C, r4, rfl, hf4⟩ := hany4
    simp only [Bool.and_eq_true, and_assoc] at hf4
    obtain ⟨hC, htokany⟩ := hf4
    rw [List.any_eq_true] at htokany
    obtain ⟨tok, htokmem, htokc⟩ := htokany
    simp only [Bool.and_eq_true, and_assoc, beq_iff_eq] at htokc
    obtain ⟨htk, hbd⟩ := htokc
    have hr4 : r4 = tok ++ r4.drop tok.length := by
      conv_lhs => rw [← List.take_append_drop tok.length r4]
      rw [htk]
    refine ⟨A, B, W, C, tok, r4.drop tok.length, ?_, ?_, ?_, ?_, ?_, ?_, ?_, ?_, ?_,
      htokmem, ?_⟩
    · rw [← hr4]
    · intro hz
      rw [hz] at hA1
      simp at hA1
    · exact List.all_eq_true.mp hA2
    · intro c hc
      have := List.all_eq_true.mp hB c hc
      simpa using this
    · intro hz
      rw [hz] at hW1
      simp at hW1
    · exact List.all_eq_true.mp hW2
    · exact hlast
    · rw [← hr4]
      exact hhead
    · intro c hc
      have := List.all_eq_true.mp hC c hc
      simpa using this
    · rcases Bool.or_eq_true _ _ |>.mp hbd with hz | hz
      · exact Or.inl (by simpa [List.isEmpty_iff] using hz)
      · exact Or.inr hz
  · rintro ⟨A, B, W, C, K, D, rfl, hA, hAd, hB, hW, hWa, hlast, hhead, hC, hK, hD⟩
    refine ⟨A, B ++ (W ++ (C ++ (K ++ D))), rfl, ?_⟩
    simp only [Bool.and_eq_true, and_assoc]
    refine ⟨by simp [List.isEmpty_iff, hA], List.all_eq_true.mpr hAd, ?_⟩
    rw [any_splits2]
    refine ⟨B, W ++ (C ++ (K ++ D)), rfl, ?_⟩
    simp only [Bool.and_eq_true, and_assoc]
    refine ⟨List.all_eq_true.mpr (fun c hc => by simpa using hB c hc), ?_⟩
    rw [any_splits2]
    refine ⟨W, C ++ (K ++ D), rfl, ?_⟩
    simp only [Bool.and_eq_true, and_assoc]
    refine ⟨by simp [List.isEmpty_iff, hW], List.all_eq_true.mpr hWa, hlast, hhead, ?_⟩
    rw [any_splits2]
    refine ⟨C, K ++ D, rfl, ?_⟩
    simp only [Bool.and_eq_true, and_assoc]
    refine ⟨List.all_eq_true.mpr (fun c hc => by simpa using hC c hc), ?_⟩
    rw [List.any_eq_true]
    refine ⟨K, hK, ?_⟩
    simp only [Bool.and_eq_true, and_assoc, beq_iff_eq]
    refine ⟨List.take_left K D, ?_⟩
    rw [List.drop_left]
    rcases hD with rfl | hD
    · simp
    · simp [hD]

/-- C3 counterexample: `"123 St"` satisfies the claimed shape (digits,
then the street token `st` as a whole word), yet `validate_street`
rejects it, because the regex also demands a separate whole word of
letters between the digits and the token. -/
theorem c3_counterexample :
    claimStreetShape "123 St".toList = true ∧
    validate_street "123 St".toList = false := by
  exact ⟨by decide, by decide⟩

/-- C3 (amended): `validate_street` holds iff the trimmed length is at
least 5, the raw length at most 100, and the lowercased text decomposes
as digits, a non-newline gap, a whole alphabetic word, a non-newline gap,
and a street-type token that ends at a word boundary (the token's start
may sit inside a longer word; the extra alphabetic word is required). -/
theorem c3_street_amended (s : List Char) :
    validate_street s = true ↔
      (5 ≤ (pyStrip s).length ∧ s.length ≤ 100 ∧
        streetRegexSpec (s.map Char.toLower)) := by
  unfold validate_street
  simp only [Bool.and_eq_true, Bool.not_eq_true', Bool.or_eq_false_iff,
    decide_eq_false_iff_not, Nat.not_lt, streetMatch_iff]
  constructor
  · rintro ⟨⟨⟨hne, h5⟩, h100⟩, hm⟩
    exact ⟨h5, h100, hm⟩
  · rintro ⟨h5, h100, hm⟩
    refine ⟨⟨⟨?_, h5⟩, h100⟩, hm⟩
    cases s with
    | nil => simp [pyStrip] at h5
    | cons c r => rfl

/-- C3 witness: a canonical street address accepted through the amended
theorem, with its explicit decomposition. -/
theorem c3_street_amended_witness :
    validate_street "123 Main St".toList = true :=
  (c3_street_amended "123 Main St".toList).mpr
    ⟨by decide, by decide,
      ⟨"123".toList, " ".toList, "main".toList, " ".toList, "st".toList, [],
        by decide, by decide, by decide, by decide, by decide, by decide,
        by decide, by decide, by decide, by decide, Or.inl rfl⟩⟩

end HomeInfo
